import Mathlib

set_option maxHeartbeats 1000000

/-!
Verification of the autoschematic Kafka connector's reconciliation core:
the address codec (src/addr.rs), the resource model (src/resource.rs), the
planner (src/connector/plan.rs) and the executor (src/connector/op_exec.rs),
shallowly embedded in Lean.

Modelling conventions:
* File paths are strings.  Rust's `Path::components` on the relative paths
  this codec handles yields the slash-separated segments with empty and "."
  segments dropped; `pathComponents` below implements exactly that.
* Machine integers (`i32`, `i16`) are `Int` with explicit range checks where
  the deserializer enforces them.
* `f64` appears only inside `Option<f64>` quota fields and the only fact the
  code depends on is IEEE equality (`NaN == NaN` is false, finite values
  compare by value); `F64` models exactly that fragment.
* The textual RON parser lives in an external crate; payloads are modelled
  as already-lexed structured values (`RVal`), and the serde-derive visitor
  semantics dictated by the attributes in src/src/resource.rs
  (`deny_unknown_fields`, container `default`, required fields) are
  implemented over them.
* Fallible Rust functions return `Except String`; `panic!` sites are modelled
  by the distinguished `panicked` outcome, kept separate from `Err` results.
* The remote Kafka admin client is an external collaborator: the executor is
  parameterised by the response the client would give and returns, alongside
  its result, the list of admin calls it issued.
-/

/-- Rust `Path::components` style splitting of a character list at every
slash: the maximal slash-free runs, including empty runs between adjacent
slashes. -/
def splitSlash : List Char → List (List Char)
  | [] => [[]]
  | c :: rest =>
    if c = '/' then
      [] :: splitSlash rest
    else
      match splitSlash rest with
      | [] => [[c]]
      | s :: ss => (c :: s) :: ss

/-- A path segment survives `Path::components`: it is neither empty nor the
current-directory marker ".". -/
def keepSeg (s : String) : Bool := !(s == "") && !(s == ".")

/-- The component list of a relative path, as `path.components()` produces it
in `KafkaResourceAddress::from_path` (src/src/addr.rs line 45). -/
def pathComponents (path : String) : List String :=
  ((splitSlash path.data).map String.mk).filter keepSeg

/-- Models the `topic_file.ends_with(".ron")` match guard together with
`topic_file.strip_suffix(".ron")` from src/src/addr.rs: `some` with the
stripped stem exactly when the string ends with ".ron". -/
def stripDotRon (s : String) : Option String :=
  if s.data.reverse.take 4 = ['n', 'o', 'r', '.'] then
    some (String.mk ((s.data.reverse.drop 4).reverse))
  else
    none

/-- Modelled from the spec: `lib.rs` declares `pub mod task` but `task.rs` is
not present under src/.  `KafkaTask` is the opaque control-task kind carried
by the `Task` address variant; no claim depends on its content and
`to_path_buf` ignores it. -/
structure KafkaTask where
  kindTag : String
deriving DecidableEq

/-- The address sum type of src/src/addr.rs. -/
inductive KafkaResourceAddress where
  | Config : KafkaResourceAddress
  | Topic (cluster : String) (topic : String) : KafkaResourceAddress
  | Acl (cluster : String) (acl_id : String) : KafkaResourceAddress
  | Quota (cluster : String) (quota_id : String) : KafkaResourceAddress
  | Task (kind : KafkaTask) : KafkaResourceAddress
deriving DecidableEq

/-- Models `autoschematic_core::error_util::invalid_addr_path` (an external
crate): the only fact the connector depends on is that it is an `Err`. -/
def invalidAddrPath (path : String) : String := "invalid address path: " ++ path

/-- `KafkaResourceAddress::to_path_buf` (src/src/addr.rs lines 32-42). -/
def KafkaResourceAddress.to_path_buf : KafkaResourceAddress → String
  | .Config => "kafka/config.ron"
  | .Topic cluster topic => "kafka/" ++ cluster ++ "/topics/" ++ topic ++ ".ron"
  | .Acl cluster acl_id => "kafka/" ++ cluster ++ "/acls/" ++ acl_id ++ ".ron"
  | .Quota cluster quota_id => "kafka/" ++ cluster ++ "/quotas/" ++ quota_id ++ ".ron"
  | .Task _ => "kafka/task.ron"

/-- `KafkaResourceAddress::from_path` (src/src/addr.rs lines 44-74).  In the
Rust source the three parameterised arms carry an `ends_with(".ron")` match
guard; a guard failure falls through to the wildcard arm, which is what the
inner `none` branches reproduce here (no other arm can match a list whose
third component is "topics", "acls" or "quotas" respectively). -/
def KafkaResourceAddress.from_path (path : String) : Except String KafkaResourceAddress :=
  match pathComponents path with
  | ["kafka", "config.ron"] => .ok .Config
  | ["kafka", cluster, "topics", topic_file] =>
    match stripDotRon topic_file with
    | some topic => .ok (.Topic cluster topic)
    | none => .error (invalidAddrPath path)
  | ["kafka", cluster, "acls", acl_file] =>
    match stripDotRon acl_file with
    | some acl_id => .ok (.Acl cluster acl_id)
    | none => .error (invalidAddrPath path)
  | ["kafka", cluster, "quotas", quota_file] =>
    match stripDotRon quota_file with
    | some quota_id => .ok (.Quota cluster quota_id)
    | none => .error (invalidAddrPath path)
  | _ => .error (invalidAddrPath path)

/-- The side condition under which encode-then-decode can recover an address:
every string field must stay a single path component.  The cluster must be a
single normal segment (non-empty, not ".", slash-free); the trailing name only
needs to be slash-free because ".ron" is appended to it before splitting.
`Task` addresses are excluded: decoding never produces them. -/
def addrRoundTripSafe : KafkaResourceAddress → Prop
  | .Config => True
  | .Topic cluster topic =>
      (cluster ≠ "" ∧ cluster ≠ "." ∧ '/' ∉ cluster.data) ∧ '/' ∉ topic.data
  | .Acl cluster acl_id =>
      (cluster ≠ "" ∧ cluster ≠ "." ∧ '/' ∉ cluster.data) ∧ '/' ∉ acl_id.data
  | .Quota cluster quota_id =>
      (cluster ≠ "" ∧ cluster ≠ "." ∧ '/' ∉ cluster.data) ∧ '/' ∉ quota_id.data
  | .Task _ => False

theorem splitSlash_ne_nil (l : List Char) : splitSlash l ≠ [] := by
  match l with
  | [] => simp [splitSlash]
  | c :: rest =>
    by_cases h : c = '/'
    · simp [splitSlash, h]
    · have ih := splitSlash_ne_nil rest
      simp only [splitSlash, if_neg h]
      match hs : splitSlash rest with
      | [] => exact absurd hs ih
      | s :: ss => simp

theorem splitSlash_append (xs ys : List Char) :
    splitSlash (xs ++ '/' :: ys) = splitSlash xs ++ splitSlash ys := by
  induction xs with
  | nil => simp [splitSlash]
  | cons c rest ih =>
    by_cases h : c = '/'
    · simp [splitSlash, h, ih]
    · simp only [List.cons_append, splitSlash, if_neg h, ih]
      cases hs : splitSlash rest with
      | nil => exact absurd hs (splitSlash_ne_nil rest)
      | cons s ss =>
        have hr : rest.append ('/' :: ys) = rest ++ '/' :: ys := rfl
        rw [hr, ih, hs]
        rfl

theorem splitSlash_no_slash (xs : List Char) (h : '/' ∉ xs) : splitSlash xs = [xs] := by
  induction xs with
  | nil => simp [splitSlash]
  | cons c rest ih =>
    have hc : c ≠ '/' := fun hc => h (hc ▸ List.mem_cons_self c rest)
    have hr : '/' ∉ rest := fun hm => h (List.mem_cons_of_mem c hm)
    simp [splitSlash, hc, ih hr]

theorem splitSlash_seg_append (xs ys : List Char) (h : '/' ∉ xs) :
    splitSlash (xs ++ '/' :: ys) = xs :: splitSlash ys := by
  rw [splitSlash_append, splitSlash_no_slash xs h]
  rfl

theorem string_data_append (a b : String) : (a ++ b).data = a.data ++ b.data := rfl

theorem stripDotRon_append (t : String) : stripDotRon (t ++ ".ron") = some t := by
  have hdata : (t ++ ".ron").data = t.data ++ ['.', 'r', 'o', 'n'] := rfl
  have hrev : (t ++ ".ron").data.reverse = ['n', 'o', 'r', '.'] ++ t.data.reverse := by
    rw [hdata, List.reverse_append]
    rfl
  unfold stripDotRon
  rw [hrev, List.take_left' (by rfl), if_pos rfl, List.drop_left' (by rfl)]
  simp only [List.reverse_reverse]

theorem keepSeg_of_ne (s : String) (h1 : s ≠ "") (h2 : s ≠ ".") : keepSeg s = true := by
  simp [keepSeg, h1, h2]

theorem ron_file_ne_empty (t : String) : t ++ ".ron" ≠ "" := by
  intro h
  have : (t ++ ".ron").data = "".data := by rw [h]
  rw [string_data_append] at this
  simp [String.data] at this

theorem ron_file_ne_dot (t : String) : t ++ ".ron" ≠ "." := by
  intro h
  have hlen : (t ++ ".ron").data.length = ".".data.length := by rw [h]
  rw [string_data_append, List.length_append] at hlen
  simp [String.data] at hlen

theorem ron_file_no_slash (t : String) (ht : '/' ∉ t.data) : '/' ∉ (t ++ ".ron").data := by
  rw [string_data_append]
  intro hm
  rcases List.mem_append.mp hm with h | h
  · exact ht h
  · simp [String.data] at h

/-- Component list of an encoded four-segment path, under the side conditions
of `addrRoundTripSafe`. -/
theorem pathComponents_encode4 (hd mid : String) (c t : String)
    (hhd : '/' ∉ hd.data ∧ hd ≠ "" ∧ hd ≠ ".")
    (hmid : '/' ∉ mid.data ∧ mid ≠ "" ∧ mid ≠ ".")
    (hc : c ≠ "" ∧ c ≠ "." ∧ '/' ∉ c.data) (ht : '/' ∉ t.data) :
    pathComponents (hd ++ "/" ++ c ++ "/" ++ mid ++ "/" ++ t ++ ".ron")
      = [hd, c, mid, t ++ ".ron"] := by
  have hdata : (hd ++ "/" ++ c ++ "/" ++ mid ++ "/" ++ t ++ ".ron").data
      = hd.data ++ '/' :: (c.data ++ '/' :: (mid.data ++ '/' :: (t ++ ".ron").data)) := by
    simp [string_data_append, String.data, List.append_assoc]
  have hsplit : splitSlash (hd ++ "/" ++ c ++ "/" ++ mid ++ "/" ++ t ++ ".ron").data
      = [hd.data, c.data, mid.data, (t ++ ".ron").data] := by
    rw [hdata, splitSlash_seg_append _ _ hhd.1, splitSlash_seg_append _ _ hc.2.2,
      splitSlash_seg_append _ _ hmid.1, splitSlash_no_slash _ (ron_file_no_slash t ht)]
  unfold pathComponents
  rw [hsplit]
  simp only [List.map_cons, List.map_nil]
  have e1 : String.mk hd.data = hd := rfl
  have e2 : String.mk c.data = c := rfl
  have e3 : String.mk mid.data = mid := rfl
  have e4 : String.mk (t ++ ".ron").data = t ++ ".ron" := rfl
  rw [e1, e2, e3, e4]
  rw [List.filter_cons_of_pos (keepSeg_of_ne hd hhd.2.1 hhd.2.2),
    List.filter_cons_of_pos (keepSeg_of_ne c hc.1 hc.2.1),
    List.filter_cons_of_pos (keepSeg_of_ne mid hmid.2.1 hmid.2.2),
    List.filter_cons_of_pos (keepSeg_of_ne _ (ron_file_ne_empty t) (ron_file_ne_dot t)),
    List.filter_nil]

/-- Helper: concatenation form of each encoded four-segment path. -/
theorem topic_path_eq (c t : String) :
    KafkaResourceAddress.to_path_buf (.Topic c t)
      = "kafka" ++ "/" ++ c ++ "/" ++ "topics" ++ "/" ++ t ++ ".ron" := by
  show String.mk _ = String.mk _
  simp [String.data, List.append_assoc]

theorem acl_path_eq (c a : String) :
    KafkaResourceAddress.to_path_buf (.Acl c a)
      = "kafka" ++ "/" ++ c ++ "/" ++ "acls" ++ "/" ++ a ++ ".ron" := by
  show String.mk _ = String.mk _
  simp [String.data, List.append_assoc]

theorem quota_path_eq (c q : String) :
    KafkaResourceAddress.to_path_buf (.Quota c q)
      = "kafka" ++ "/" ++ c ++ "/" ++ "quotas" ++ "/" ++ q ++ ".ron" := by
  show String.mk _ = String.mk _
  simp [String.data, List.append_assoc]

/-- Shared helper: decode is a left inverse of encode on component-safe
non-Task addresses. -/
theorem decode_encode_of_safe (a : KafkaResourceAddress) (h : addrRoundTripSafe a) :
    KafkaResourceAddress.from_path a.to_path_buf = .ok a := by
  match a with
  | .Config => rfl
  | .Topic c t =>
    obtain ⟨hc, ht⟩ := h
    rw [topic_path_eq]
    unfold KafkaResourceAddress.from_path
    rw [pathComponents_encode4 "kafka" "topics" c t (by decide) (by decide) hc ht]
    simp [stripDotRon_append]
  | .Acl c a =>
    obtain ⟨hc, ha⟩ := h
    rw [acl_path_eq]
    unfold KafkaResourceAddress.from_path
    rw [pathComponents_encode4 "kafka" "acls" c a (by decide) (by decide) hc ha]
    simp [stripDotRon_append]
  | .Quota c q =>
    obtain ⟨hc, hq⟩ := h
    rw [quota_path_eq]
    unfold KafkaResourceAddress.from_path
    rw [pathComponents_encode4 "kafka" "quotas" c q (by decide) (by decide) hc hq]
    simp [stripDotRon_append]
  | .Task k => exact absurd h (by simp [addrRoundTripSafe])

deriving instance DecidableEq for Except

/-- The fragment of IEEE `f64` the quota code depends on: the only operation
ever applied to these fields is `PartialEq`, for which NaN compares unequal
to everything (itself included) and finite values compare by value. -/
inductive F64 where
  | nan : F64
  | finite (v : ℚ) : F64
deriving DecidableEq

/-- Rust `f64` equality: `NaN == x` is always false. -/
def f64Eq : F64 → F64 → Bool
  | .nan, _ => false
  | _, .nan => false
  | .finite a, .finite b => a == b

/-- Rust `Option<f64>` equality as derived `PartialEq` uses it. -/
def optF64Eq : Option F64 → Option F64 → Bool
  | none, none => true
  | some a, some b => f64Eq a b
  | _, _ => false

/-- Enums of src/src/resource.rs. -/
inductive KafkaResourceType where
  | Topic | Group | Cluster | TransactionalId | DelegationToken
deriving DecidableEq

inductive KafkaResourcePatternType where
  | Literal | Prefixed
deriving DecidableEq

inductive KafkaPrincipalType where
  | User | Group
deriving DecidableEq

structure KafkaPrincipal where
  principal_type : KafkaPrincipalType
  name : String
deriving DecidableEq

inductive KafkaAclOperation where
  | Read | Write | Create | Delete | Alter | Describe | ClusterAction
  | DescribeConfigs | AlterConfigs | IdempotentWrite | All
deriving DecidableEq

inductive KafkaAclPermission where
  | Allow | Deny
deriving DecidableEq

/-- `KafkaTopic` (src/src/resource.rs lines 16-26): `partitions: i32`,
`replication_factor: i16` are `Int` with the ranges enforced at parse time;
`config: IndexMap<String, String>` is an insertion-ordered association list
with unique keys. -/
structure KafkaTopic where
  partitions : Int
  replication_factor : Int
  config : List (String × String)
deriving DecidableEq

structure KafkaAcl where
  resource_type : KafkaResourceType
  resource_name : String
  pattern_type : KafkaResourcePatternType
  principal : KafkaPrincipal
  host : String
  operation : KafkaAclOperation
  permission : KafkaAclPermission
deriving DecidableEq

inductive KafkaQuotaEntityType where
  | User | ClientId | Ip
deriving DecidableEq

structure KafkaQuotaEntity where
  entity_type : KafkaQuotaEntityType
  name : String
deriving DecidableEq

structure KafkaQuota where
  entities : List KafkaQuotaEntity
  producer_byte_rate : Option F64
  consumer_byte_rate : Option F64
  request_percentage : Option F64
deriving DecidableEq

/-- `KafkaTopic::default` (src/src/resource.rs lines 28-36). -/
def kafkaTopicDefault : KafkaTopic := ⟨1, 1, []⟩

/-- `KafkaAcl::default` (src/src/resource.rs lines 136-151). -/
def kafkaAclDefault : KafkaAcl :=
  ⟨.Topic, "", .Literal, ⟨.User, ""⟩, "*", .All, .Allow⟩

/-- `KafkaQuota::default` (src/src/resource.rs lines 187-196). -/
def kafkaQuotaDefault : KafkaQuota := ⟨[], none, none, none⟩

/-- `IndexMap::insert`: an existing key keeps its position and has its value
replaced; a new key is appended. -/
def indexMapInsert (m : List (String × String)) (k v : String) : List (String × String) :=
  if m.any (fun p => p.1 == k) then
    m.map (fun p => if p.1 == k then (k, v) else p)
  else
    m ++ [(k, v)]

/-- `IndexMap::eq` (the `PartialEq` the derived `KafkaTopic` comparison uses):
equal lengths and every key of the left map bound to the same value in the
right map — insertion order is irrelevant. -/
def indexMapEq (a b : List (String × String)) : Bool :=
  a.length == b.length && a.all (fun p => b.lookup p.1 == some p.2)

/-- Derived `PartialEq` for `KafkaQuota`: structural on `entities`, IEEE
equality on the three optional rates. -/
def kafkaQuotaEq (a b : KafkaQuota) : Bool :=
  a.entities == b.entities
    && optF64Eq a.producer_byte_rate b.producer_byte_rate
    && optF64Eq a.consumer_byte_rate b.consumer_byte_rate
    && optF64Eq a.request_percentage b.request_percentage

/-- A structured resource payload: the value tree the external RON text
parser hands to the serde-derived visitors of src/src/resource.rs.  The
textual lexing itself is external plumbing; everything the attributes
(`deny_unknown_fields`, container `default`, required fields) decide is
modelled below over these trees. -/
inductive RVal where
  | intV (n : Int) : RVal
  | floatV (f : F64) : RVal
  | strV (s : String) : RVal
  | unitVariant (name : String) : RVal
  | optV (o : Option RVal) : RVal
  | mapV (entries : List (String × RVal)) : RVal
  | recV (fields : List (String × RVal)) : RVal
  | seqV (items : List RVal) : RVal

/-- The field-name validation a serde struct visitor with
`deny_unknown_fields` performs: each field identifier must belong to the
schema and must not repeat.  On success the field list passes through
unchanged.  (serde detects the first offending name while streaming; this
model validates names first and parses values afterwards, which accepts and
rejects exactly the same payloads, though error messages may differ.) -/
def parseStructFields (schema : List String) (seen : List String) :
    List (String × RVal) → Except String (List (String × RVal))
  | [] => .ok []
  | (name, v) :: rest =>
    if name ∉ schema then
      .error ("unknown field " ++ name)
    else if name ∈ seen then
      .error ("duplicate field " ++ name)
    else
      match parseStructFields schema (name :: seen) rest with
      | .ok r => .ok ((name, v) :: r)
      | .error e => .error e

/-- `i32` deserialization: integer literal within range. -/
def asI32 : RVal → Except String Int
  | .intV n => if -2147483648 ≤ n ∧ n ≤ 2147483647 then .ok n else .error "i32 out of range"
  | _ => .error "invalid type: expected i32"

/-- `i16` deserialization: integer literal within range. -/
def asI16 : RVal → Except String Int
  | .intV n => if -32768 ≤ n ∧ n ≤ 32767 then .ok n else .error "i16 out of range"
  | _ => .error "invalid type: expected i16"

def asStringV : RVal → Except String String
  | .strV s => .ok s
  | _ => .error "invalid type: expected string"

/-- `IndexMap<String, String>` deserialization: fold the map entries through
`IndexMap::insert` (duplicate keys re-bind in place, last value wins). -/
def parseStringMapEntries (acc : List (String × String)) :
    List (String × RVal) → Except String (List (String × String))
  | [] => .ok acc
  | (k, v) :: rest =>
    match v with
    | .strV s => parseStringMapEntries (indexMapInsert acc k s) rest
    | _ => .error "invalid type: expected string value"

def asStringMap : RVal → Except String (List (String × String))
  | .mapV entries => parseStringMapEntries [] entries
  | _ => .error "invalid type: expected map"

def asResourceTypeV : RVal → Except String KafkaResourceType
  | .unitVariant "Topic" => .ok .Topic
  | .unitVariant "Group" => .ok .Group
  | .unitVariant "Cluster" => .ok .Cluster
  | .unitVariant "TransactionalId" => .ok .TransactionalId
  | .unitVariant "DelegationToken" => .ok .DelegationToken
  | _ => .error "invalid type: expected KafkaResourceType"

def asPatternTypeV : RVal → Except String KafkaResourcePatternType
  | .unitVariant "Literal" => .ok .Literal
  | .unitVariant "Prefixed" => .ok .Prefixed
  | _ => .error "invalid type: expected KafkaResourcePatternType"

def asPrincipalTypeV : RVal → Except String KafkaPrincipalType
  | .unitVariant "User" => .ok .User
  | .unitVariant "Group" => .ok .Group
  | _ => .error "invalid type: expected KafkaPrincipalType"

def asAclOperationV : RVal → Except String KafkaAclOperation
  | .unitVariant "Read" => .ok .Read
  | .unitVariant "Write" => .ok .Write
  | .unitVariant "Create" => .ok .Create
  | .unitVariant "Delete" => .ok .Delete
  | .unitVariant "Alter" => .ok .Alter
  | .unitVariant "Describe" => .ok .Describe
  | .unitVariant "ClusterAction" => .ok .ClusterAction
  | .unitVariant "DescribeConfigs" => .ok .DescribeConfigs
  | .unitVariant "AlterConfigs" => .ok .AlterConfigs
  | .unitVariant "IdempotentWrite" => .ok .IdempotentWrite
  | .unitVariant "All" => .ok .All
  | _ => .error "invalid type: expected KafkaAclOperation"

def asAclPermissionV : RVal → Except String KafkaAclPermission
  | .unitVariant "Allow" => .ok .Allow
  | .unitVariant "Deny" => .ok .Deny
  | _ => .error "invalid type: expected KafkaAclPermission"

def asQuotaEntityTypeV : RVal → Except String KafkaQuotaEntityType
  | .unitVariant "User" => .ok .User
  | .unitVariant "ClientId" => .ok .ClientId
  | .unitVariant "Ip" => .ok .Ip
  | _ => .error "invalid type: expected KafkaQuotaEntityType"

/-- Duplicate check restricted to known field names, for the nested structs
(`KafkaPrincipal`, `KafkaQuotaEntity`) which carry no `deny_unknown_fields`
attribute: serde ignores their unknown fields but still rejects a repeated
known field. -/
def hasDupKnown (known : List String) : List (String × RVal) → Bool
  | [] => false
  | (n, _) :: rest =>
    (decide (n ∈ known) && rest.any (fun p => p.1 == n)) || hasDupKnown known rest

def parsePrincipal : RVal → Except String KafkaPrincipal
  | .recV fields =>
    if hasDupKnown ["principal_type", "name"] fields then
      .error "duplicate field in KafkaPrincipal"
    else
      match fields.lookup "principal_type", fields.lookup "name" with
      | some tv, some nv => do
        let t ← asPrincipalTypeV tv
        let n ← asStringV nv
        .ok ⟨t, n⟩
      | _, _ => .error "missing field in KafkaPrincipal"
  | _ => .error "invalid type: expected struct KafkaPrincipal"

def parseQuotaEntity : RVal → Except String KafkaQuotaEntity
  | .recV fields =>
    if hasDupKnown ["entity_type", "name"] fields then
      .error "duplicate field in KafkaQuotaEntity"
    else
      match fields.lookup "entity_type", fields.lookup "name" with
      | some tv, some nv => do
        let t ← asQuotaEntityTypeV tv
        let n ← asStringV nv
        .ok ⟨t, n⟩
      | _, _ => .error "missing field in KafkaQuotaEntity"
  | _ => .error "invalid type: expected struct KafkaQuotaEntity"

def parseQuotaEntities : List RVal → Except String (List KafkaQuotaEntity)
  | [] => .ok []
  | v :: rest => do
    let e ← parseQuotaEntity v
    let es ← parseQuotaEntities rest
    .ok (e :: es)

def asEntitiesV : RVal → Except String (List KafkaQuotaEntity)
  | .seqV items => parseQuotaEntities items
  | _ => .error "invalid type: expected sequence"

/-- `Option<f64>` deserialization: `None` or `Some(float)`. -/
def asOptF64 : RVal → Except String (Option F64)
  | .optV none => .ok none
  | .optV (some (.floatV f)) => .ok (some f)
  | .optV (some _) => .error "invalid type: expected f64"
  | _ => .error "invalid type: expected option"

/-- Required-field access for structs without a container `default`. -/
def reqField (fields : List (String × RVal)) (name : String) : Except String RVal :=
  match fields.lookup name with
  | some v => .ok v
  | none => .error ("missing field " ++ name)

def topicFieldNames : List String := ["partitions", "replication_factor", "config"]

def aclFieldNames : List String :=
  ["resource_type", "resource_name", "pattern_type", "principal", "host",
    "operation", "permission"]

def quotaFieldNames : List String :=
  ["entities", "producer_byte_rate", "consumer_byte_rate", "request_percentage"]

/-- Deserialization of `KafkaTopic`: the struct carries
`#[serde(default, deny_unknown_fields)]`, so unknown fields are rejected but
a missing field is taken from `KafkaTopic::default()` (partitions 1,
replication_factor 1, empty config) instead of erroring. -/
def parseTopic : RVal → Except String KafkaTopic
  | .recV fields => do
    let _ ← parseStructFields topicFieldNames [] fields
    let partitions ← (match fields.lookup "partitions" with
      | some v => asI32 v
      | none => .ok kafkaTopicDefault.partitions)
    let replication_factor ← (match fields.lookup "replication_factor" with
      | some v => asI16 v
      | none => .ok kafkaTopicDefault.replication_factor)
    let config ← (match fields.lookup "config" with
      | some v => asStringMap v
      | none => .ok kafkaTopicDefault.config)
    .ok ⟨partitions, replication_factor, config⟩
  | _ => .error "invalid type: expected struct KafkaTopic"

/-- Deserialization of `KafkaAcl`: `#[serde(deny_unknown_fields)]`, every
field required. -/
def parseAcl : RVal → Except String KafkaAcl
  | .recV fields => do
    let _ ← parseStructFields aclFieldNames [] fields
    let rtv ← reqField fields "resource_type"
    let resource_type ← asResourceTypeV rtv
    let rnv ← reqField fields "resource_name"
    let resource_name ← asStringV rnv
    let ptv ← reqField fields "pattern_type"
    let pattern_type ← asPatternTypeV ptv
    let prv ← reqField fields "principal"
    let principal ← parsePrincipal prv
    let hv ← reqField fields "host"
    let host ← asStringV hv
    let ov ← reqField fields "operation"
    let operation ← asAclOperationV ov
    let pv ← reqField fields "permission"
    let permission ← asAclPermissionV pv
    .ok ⟨resource_type, resource_name, pattern_type, principal, host, operation, permission⟩
  | _ => .error "invalid type: expected struct KafkaAcl"

/-- Deserialization of `KafkaQuota`: `#[serde(deny_unknown_fields)]`, every
field required (`Option` fields must still be present as `None`/`Some`). -/
def parseQuota : RVal → Except String KafkaQuota
  | .recV fields => do
    let _ ← parseStructFields quotaFieldNames [] fields
    let ev ← reqField fields "entities"
    let entities ← asEntitiesV ev
    let pv ← reqField fields "producer_byte_rate"
    let producer_byte_rate ← asOptF64 pv
    let cv ← reqField fields "consumer_byte_rate"
    let consumer_byte_rate ← asOptF64 cv
    let rv ← reqField fields "request_percentage"
    let request_percentage ← asOptF64 rv
    .ok ⟨entities, producer_byte_rate, consumer_byte_rate, request_percentage⟩
  | _ => .error "invalid type: expected struct KafkaQuota"

/-- The resource sum type (src/src/resource.rs lines 198-202). -/
inductive KafkaResource where
  | Topic (t : KafkaTopic) : KafkaResource
  | Acl (a : KafkaAcl) : KafkaResource
  | Quota (q : KafkaQuota) : KafkaResource
deriving DecidableEq

/-- `KafkaResource::from_bytes` (src/src/resource.rs lines 214-227): the
address is re-decoded from its own encoded path and the payload parse is
dispatched on the decoded kind; `Config`/`Task` kinds yield an
`invalid_addr` error.  The UTF-8 check and RON text lexing are external;
the payload argument is the structured value they produce. -/
def KafkaResource.from_bytes (addr : KafkaResourceAddress) (s : RVal) :
    Except String KafkaResource :=
  match KafkaResourceAddress.from_path addr.to_path_buf with
  | .error e => .error e
  | .ok (.Topic _ _) => (parseTopic s).map KafkaResource.Topic
  | .ok (.Acl _ _) => (parseAcl s).map KafkaResource.Acl
  | .ok (.Quota _ _) => (parseQuota s).map KafkaResource.Quota
  | .ok _ => .error "invalid addr"

/-- `KafkaConnectorOp` (src/src/op.rs lines 9-25). -/
inductive KafkaConnectorOp where
  | CreateTopic (t : KafkaTopic) : KafkaConnectorOp
  | UpdateTopicPartitions (partitions : Int) : KafkaConnectorOp
  | UpdateTopicConfig (config : List (String × String)) : KafkaConnectorOp
  | DeleteTopic : KafkaConnectorOp
  | CreateAcl (a : KafkaAcl) : KafkaConnectorOp
  | DeleteAcl (a : KafkaAcl) : KafkaConnectorOp
  | CreateQuota (q : KafkaQuota) : KafkaConnectorOp
  | UpdateQuota (q : KafkaQuota) : KafkaConnectorOp
  | DeleteQuota : KafkaConnectorOp
deriving DecidableEq

/-- A `PlanResponseElement` as the `connector_op!` macro builds it: the typed
operation (which the macro serializes to a RON string — serialization is
external plumbing) and the human-readable justification. -/
structure PlanElem where
  op : KafkaConnectorOp
  friendly_message : String
deriving DecidableEq

/-- Result of a fallible connector entry point; Rust panics are kept distinct
from `anyhow` errors because a panic aborts instead of returning `Err`. -/
inductive Outcome (α : Type) where
  | ok (a : α) : Outcome α
  | err (msg : String) : Outcome α
  | panicked (msg : String) : Outcome α
deriving DecidableEq

/-- True exactly on `Err` results (not on panics). -/
def outcomeIsErr {α : Type} : Outcome α → Bool
  | .err _ => true
  | _ => false

/-- Result of the `From<KafkaResource>` conversions of
src/src/connector/plan.rs lines 213-238, whose wildcard arms are `panic!`. -/
inductive ConvResult (α : Type) where
  | ok (a : α) : ConvResult α
  | panicked (msg : String) : ConvResult α
deriving DecidableEq

/-- `From<KafkaResource> for KafkaTopic` (plan.rs lines 213-220). -/
def resourceToTopic : KafkaResource → ConvResult KafkaTopic
  | .Topic t => .ok t
  | _ => .panicked "Expected Topic resource"

/-- `From<KafkaResource> for KafkaAcl` (plan.rs lines 222-229). -/
def resourceToAcl : KafkaResource → ConvResult KafkaAcl
  | .Acl a => .ok a
  | _ => .panicked "Expected Acl resource"

/-- `From<KafkaResource> for KafkaQuota` (plan.rs lines 231-238). -/
def resourceToQuota : KafkaResource → ConvResult KafkaQuota
  | .Quota q => .ok q
  | _ => .panicked "Expected Quota resource"

/-- The `KafkaResource::from_bytes(..).context(..)?.into()` step of the plan
functions: parse, wrap the error with its context string, then convert with
the panicking `From` impl. -/
def decodeTopicAt (addr : KafkaResourceAddress) (v : RVal) (ctx : String) :
    Outcome KafkaTopic :=
  match KafkaResource.from_bytes addr v with
  | .error e => .err (ctx ++ ": " ++ e)
  | .ok r =>
    match resourceToTopic r with
    | .ok t => .ok t
    | .panicked m => .panicked m

def decodeAclAt (addr : KafkaResourceAddress) (v : RVal) (ctx : String) :
    Outcome KafkaAcl :=
  match KafkaResource.from_bytes addr v with
  | .error e => .err (ctx ++ ": " ++ e)
  | .ok r =>
    match resourceToAcl r with
    | .ok a => .ok a
    | .panicked m => .panicked m

def decodeQuotaAt (addr : KafkaResourceAddress) (v : RVal) (ctx : String) :
    Outcome KafkaQuota :=
  match KafkaResource.from_bytes addr v with
  | .error e => .err (ctx ++ ": " ++ e)
  | .ok r =>
    match resourceToQuota r with
    | .ok q => .ok q
    | .panicked m => .panicked m

def principalTypeName : KafkaPrincipalType → String
  | .User => "User"
  | .Group => "Group"

/-- Models the `{:?}` Debug formatting of `KafkaPrincipal` used in the plan
messages (derive(Debug) output shape; string escaping of the name is
external formatting detail). -/
def debugPrincipal (p : KafkaPrincipal) : String :=
  "KafkaPrincipal \x7b principal_type: " ++ principalTypeName p.principal_type
    ++ ", name: \"" ++ p.name ++ "\" \x7d"

/-- The operations the partitions comparison of `plan_topic` pushes: one
`UpdateTopicPartitions` on an increase, nothing otherwise. -/
def topicPartsOps (current_topic desired_topic : KafkaTopic) : List PlanElem :=
  if desired_topic.partitions > current_topic.partitions then
    [⟨.UpdateTopicPartitions desired_topic.partitions,
      "Increase partitions from " ++ toString current_topic.partitions
        ++ " to " ++ toString desired_topic.partitions⟩]
  else []

/-- The present/present arm of `plan_topic` (plan.rs lines 55-102).  The
imperative source pushes the partitions operation before the replication
check; an early `Err` return discards the accumulated vector, which the
functional form reproduces. -/
def planTopicDiff (current_topic desired_topic : KafkaTopic) : Outcome (List PlanElem) :=
  if desired_topic.partitions < current_topic.partitions then
    .err ("Cannot decrease partition count from " ++ toString current_topic.partitions
      ++ " to " ++ toString desired_topic.partitions
      ++ " (partitions for existing topics can only be increased)")
  else if desired_topic.replication_factor ≠ current_topic.replication_factor then
    .err ("Cannot change replication factor from "
      ++ toString current_topic.replication_factor ++ " to "
      ++ toString desired_topic.replication_factor ++ " (immutable)")
  else if indexMapEq desired_topic.config current_topic.config then
    .ok (topicPartsOps current_topic desired_topic)
  else
    .ok (topicPartsOps current_topic desired_topic
      ++ [⟨.UpdateTopicConfig desired_topic.config, "Update topic configuration"⟩])

/-- `KafkaConnector::plan_topic` (plan.rs lines 27-106). -/
def plan_topic (addr : KafkaResourceAddress) (current desired : Option RVal) :
    Outcome (List PlanElem) :=
  match current, desired with
  | none, none => .ok []
  | none, some desired_bytes =>
    match decodeTopicAt addr desired_bytes "Failed to parse desired topic" with
    | .err e => .err e
    | .panicked m => .panicked m
    | .ok desired_topic =>
      .ok [⟨.CreateTopic desired_topic,
        "Create topic with " ++ toString desired_topic.partitions
          ++ " partitions and replication factor "
          ++ toString desired_topic.replication_factor⟩]
  | some _, none => .ok [⟨.DeleteTopic, "Delete topic"⟩]
  | some current_bytes, some desired_bytes =>
    match decodeTopicAt addr current_bytes "Failed to parse current topic" with
    | .err e => .err e
    | .panicked m => .panicked m
    | .ok current_topic =>
      match decodeTopicAt addr desired_bytes "Failed to parse desired topic" with
      | .err e => .err e
      | .panicked m => .panicked m
      | .ok desired_topic => planTopicDiff current_topic desired_topic

/-- `KafkaConnector::plan_acl` (plan.rs lines 108-165). -/
def plan_acl (addr : KafkaResourceAddress) (current desired : Option RVal) :
    Outcome (List PlanElem) :=
  match current, desired with
  | none, none => .ok []
  | none, some desired_bytes =>
    match decodeAclAt addr desired_bytes "Failed to parse desired ACL" with
    | .err e => .err e
    | .panicked m => .panicked m
    | .ok desired_acl =>
      .ok [⟨.CreateAcl desired_acl,
        "Create ACL for " ++ debugPrincipal desired_acl.principal
          ++ " on " ++ desired_acl.resource_name⟩]
  | some current_bytes, none =>
    match decodeAclAt addr current_bytes "Failed to parse current ACL" with
    | .err e => .err e
    | .panicked m => .panicked m
    | .ok current_acl => .ok [⟨.DeleteAcl current_acl, "Delete ACL"⟩]
  | some current_bytes, some desired_bytes =>
    match decodeAclAt addr current_bytes "Failed to parse current ACL" with
    | .err e => .err e
    | .panicked m => .panicked m
    | .ok current_acl =>
      match decodeAclAt addr desired_bytes "Failed to parse desired ACL" with
      | .err e => .err e
      | .panicked m => .panicked m
      | .ok desired_acl =>
        if current_acl = desired_acl then
          .ok []
        else
          .ok [⟨.DeleteAcl current_acl, "Delete old ACL"⟩,
            ⟨.CreateAcl desired_acl,
              "Create new ACL for " ++ debugPrincipal desired_acl.principal
                ++ " on " ++ desired_acl.resource_name⟩]

/-- `KafkaConnector::plan_quota` (plan.rs lines 167-209). -/
def plan_quota (addr : KafkaResourceAddress) (current desired : Option RVal) :
    Outcome (List PlanElem) :=
  match current, desired with
  | none, none => .ok []
  | none, some desired_bytes =>
    match decodeQuotaAt addr desired_bytes "Failed to parse desired quota" with
    | .err e => .err e
    | .panicked m => .panicked m
    | .ok desired_quota => .ok [⟨.CreateQuota desired_quota, "Create quota"⟩]
  | some _, none => .ok [⟨.DeleteQuota, "Delete quota"⟩]
  | some current_bytes, some desired_bytes =>
    match decodeQuotaAt addr current_bytes "Failed to parse current quota" with
    | .err e => .err e
    | .panicked m => .panicked m
    | .ok current_quota =>
      match decodeQuotaAt addr desired_bytes "Failed to parse desired quota" with
      | .err e => .err e
      | .panicked m => .panicked m
      | .ok desired_quota =>
        if kafkaQuotaEq current_quota desired_quota then
          .ok []
        else
          .ok [⟨.UpdateQuota desired_quota, "Update quota"⟩]

/-- `KafkaConnector::do_plan` (plan.rs lines 10-25). -/
def do_plan (path : String) (current desired : Option RVal) : Outcome (List PlanElem) :=
  match KafkaResourceAddress.from_path path with
  | .error e => .err e
  | .ok addr =>
    match addr with
    | .Topic _ _ => plan_topic addr current desired
    | .Acl _ _ => plan_acl addr current desired
    | .Quota _ _ => plan_quota addr current desired
    | .Config => .ok []
    | .Task _ => .ok []

/-- An admin call the executor can issue against the remote cluster
(rdkafka `create_topics` / `create_partitions` / `alter_configs` /
`delete_topics`).  For `alterConfigs` the source converts the `IndexMap`
into a `HashMap`; the entry list stands for its contents. -/
inductive AdminCall where
  | createTopics (topic : String) (partitions : Int) (replication : Int)
      (config : List (String × String)) : AdminCall
  | createPartitions (topic : String) (newTotal : Int) : AdminCall
  | alterConfigs (topic : String) (entries : List (String × String)) : AdminCall
  | deleteTopics (topic : String) : AdminCall
deriving DecidableEq

/-- `OpExecResponse` from the external connector interface: an optional
outputs map and an optional human-readable message. -/
structure OpExecResponse where
  outputs : Option (List (String × String))
  friendly_message : Option String
deriving DecidableEq

/-- Single quotes around a name, as the `'{}'` format strings produce. -/
def quoteTick (s : String) : String := "\x27" ++ s ++ "\x27"

/-- Models `autoschematic_core::error_util::invalid_op` (external crate):
only its `Err`-ness matters. -/
def invalidOpMsg : String := "invalid op for address"

/-- `KafkaConnector::do_op_exec` (src/src/connector/op_exec.rs lines 12-179),
parameterised by the cluster registry key set and by the response the remote
admin client gives to each call.  The per-call result type mirrors rdkafka:
an outer `Err` for a failed call, otherwise a vector of per-item results,
each `Ok(topic name)` or `Err((topic name, error))`.  Alongside the response
the model returns the list of admin calls issued, so that "performs no
remote call" is expressible.  The operation string has already been parsed
into a `KafkaConnectorOp` (`from_str`, RON text parsing, is external). -/
def do_op_exec (clusters : List String)
    (remote : AdminCall → Except String (List (Except (String × String) String)))
    (addr : KafkaResourceAddress) (op : KafkaConnectorOp) :
    Outcome OpExecResponse × List AdminCall :=
  match addr with
  | .Config => (.err invalidOpMsg, [])
  | .Task _ => (.err invalidOpMsg, [])
  | .Topic cluster topic =>
    if cluster ∈ clusters then
      match op with
      | .CreateTopic topic_config =>
        let call := AdminCall.createTopics topic topic_config.partitions
          topic_config.replication_factor topic_config.config
        (match remote call with
          | .ok [] => .err "No result returned from create_topics"
          | .ok (.ok _ :: _) =>
            .ok ⟨none, some ("Created topic " ++ quoteTick topic
              ++ " in cluster " ++ quoteTick cluster)⟩
          | .ok (.error (topic_name, e) :: _) =>
            .err ("Failed to create topic " ++ quoteTick topic_name ++ ": " ++ e)
          | .error e =>
            .err ("Failed to create topic " ++ quoteTick topic ++ ": " ++ e),
          [call])
      | .UpdateTopicPartitions partitions =>
        let call := AdminCall.createPartitions topic partitions
        (match remote call with
          | .ok [] => .err "No result returned from create_partitions"
          | .ok (.ok _ :: _) =>
            .ok ⟨none, some ("Increased partitions for topic " ++ quoteTick topic
              ++ " to " ++ toString partitions ++ " in cluster " ++ quoteTick cluster)⟩
          | .ok (.error (topic_name, e) :: _) =>
            .err ("Failed to update partitions for topic " ++ quoteTick topic_name
              ++ ": " ++ e)
          | .error e =>
            .err ("Failed to update partitions for topic " ++ quoteTick topic
              ++ ": " ++ e),
          [call])
      | .UpdateTopicConfig topic_config =>
        let call := AdminCall.alterConfigs topic topic_config
        (match remote call with
          | .ok [] => .err "No result returned from alter_configs"
          | .ok (.ok _ :: _) =>
            .ok ⟨none, some ("Altered config for topic " ++ quoteTick topic
              ++ " in cluster " ++ quoteTick cluster)⟩
          | .ok (.error (_, e) :: _) =>
            .err ("Failed to update partitions for topic " ++ quoteTick topic
              ++ ": " ++ e)
          | .error e =>
            .err ("Failed to alter config for topic " ++ quoteTick topic ++ ": " ++ e),
          [call])
      | .DeleteTopic =>
        let call := AdminCall.deleteTopics topic
        (match remote call with
          | .ok [] => .err "No result returned from delete_topics"
          | .ok (.ok _ :: _) =>
            .ok ⟨none, some ("Deleted topic " ++ quoteTick topic
              ++ " from cluster " ++ quoteTick cluster)⟩
          | .ok (.error (topic_name, e) :: _) =>
            .err ("Failed to delete topic " ++ quoteTick topic_name ++ ": " ++ e)
          | .error e =>
            .err ("Failed to delete topic " ++ quoteTick topic ++ ": " ++ e),
          [call])
      | _ => (.err invalidOpMsg, [])
    else
      (.err ("Cluster " ++ quoteTick cluster ++ " not found"), [])
  | .Acl _cluster _acl_id =>
    (.ok ⟨none, some "ACL operation not yet implemented"⟩, [])
  | .Quota _cluster _quota_id =>
    (.ok ⟨none, some "Quota operation not yet implemented"⟩, [])

/-- Claim C1, counterexample: the claim quantifies over every constructible
non-Task address, but an address whose cluster or name contains a slash
encodes to a path with extra components, which `from_path` rejects.
`Topic { cluster: "a/b", topic: "t" }` is constructible (the fields are
arbitrary strings) yet does not round-trip. -/
theorem c1_counterexample :
    KafkaResourceAddress.from_path
        (KafkaResourceAddress.to_path_buf (.Topic "a/b" "t"))
      ≠ .ok (.Topic "a/b" "t") := by decide

/-- Claim C1 (amended): for every non-Task address whose cluster is a single
normal path segment (non-empty, not ".", slash-free) and whose
topic/acl_id/quota_id is slash-free, decoding the path produced by encoding
the address yields the address again: `from_path (to_path_buf a) = Ok(a)`. -/
theorem c1_decode_encode (a : KafkaResourceAddress) (h : addrRoundTripSafe a) :
    KafkaResourceAddress.from_path a.to_path_buf = .ok a :=
  decode_encode_of_safe a h

theorem c1_decode_encode_witness :
    addrRoundTripSafe (.Topic "prod" "events")
      ∧ KafkaResourceAddress.from_path
          (KafkaResourceAddress.to_path_buf (.Topic "prod" "events"))
        = .ok (.Topic "prod" "events") :=
  ⟨⟨⟨by decide, by decide, by decide⟩, by decide⟩,
    c1_decode_encode (.Topic "prod" "events")
      ⟨⟨by decide, by decide, by decide⟩, by decide⟩⟩

/-- The canonical path per address value, written following the spec's §4.1
grammar amended by the counterexample: the code appends the ".ron"
extension to the final segment of every shape.  This definition is the
spec-side refinement target, to be compared with `to_path_buf`. -/
def specCanonicalPath : KafkaResourceAddress → String
  | .Config => "kafka/config" ++ ".ron"
  | .Topic c t => "kafka/" ++ c ++ "/topics/" ++ t ++ ".ron"
  | .Acl c a => "kafka/" ++ c ++ "/acls/" ++ a ++ ".ron"
  | .Quota c q => "kafka/" ++ c ++ "/quotas/" ++ q ++ ".ron"
  | .Task _ => "kafka/task" ++ ".ron"

/-- Claim C8, counterexample: the claim maps `Config` to "kafka/config" and
`Topic{c,t}` to "kafka/{c}/topics/{t}", but the code emits the ".ron"
extension on every path. -/
theorem c8_counterexample :
    KafkaResourceAddress.to_path_buf .Config ≠ "kafka/config"
      ∧ KafkaResourceAddress.to_path_buf (.Topic "c" "t") ≠ "kafka/c/topics/t" := by
  decide

/-- Claim C8 (amended): encode is deterministic (it is a function) and maps
each address value to exactly the canonical grammar path with ".ron"
appended to the final segment: Config to "kafka/config.ron", Topic{c,t} to
"kafka/{c}/topics/{t}.ron", Acl{c,a} to "kafka/{c}/acls/{a}.ron",
Quota{c,q} to "kafka/{c}/quotas/{q}.ron", Task to "kafka/task.ron". -/
theorem c8_encode_canonical (a : KafkaResourceAddress) :
    a.to_path_buf = specCanonicalPath a := by
  cases a <;> rfl

/-- Claim C9: the spec requires the `From<KafkaResource>` conversion boundary
to fail safely with a typed error on a wrong variant, but the code's
wildcard arms are `panic!` — evaluating each conversion at a wrong-variant
input shows the panic, not an error return. -/
theorem c9_wrong_variant_conversion :
    resourceToTopic (.Acl kafkaAclDefault) = .panicked "Expected Topic resource"
      ∧ resourceToAcl (.Topic kafkaTopicDefault) = .panicked "Expected Acl resource"
      ∧ resourceToQuota (.Topic kafkaTopicDefault) = .panicked "Expected Quota resource" :=
  ⟨rfl, rfl, rfl⟩

/-- A quota payload whose producer_byte_rate is Some(NaN); the RON text
"NaN" parses to an f64 NaN in the external lexer, modelled here as the
structured value directly. -/
def nanQuotaPayload : RVal :=
  .recV [("entities", .seqV []),
    ("producer_byte_rate", .optV (some (.floatV .nan))),
    ("consumer_byte_rate", .optV none),
    ("request_percentage", .optV none)]

/-- Claim C10: planning a quota address with byte-identical current and
desired payloads whose producer_byte_rate is NaN is not a no-op: derived
`PartialEq` over `Option<f64>` is irreflexive at NaN, so the diff emits
`UpdateQuota` carrying the decoded desired quota. -/
theorem c10_nan_quota_plan_not_noop :
    do_plan "kafka/c/quotas/q.ron" (some nanQuotaPayload) (some nanQuotaPayload)
      = .ok [⟨.UpdateQuota ⟨[], some .nan, none, none⟩, "Update quota"⟩] := by
  decide

/-- Claim C2: for a Topic plan with both sides present and well-formed, a
partitions decrease or any replication_factor change makes the plan return
a validation error — the whole result is `Err`, so no partial operation
list escapes even when a partitions increase was already pushed. -/
theorem c2_topic_plan_validation (addr : KafkaResourceAddress) (cv dv : RVal)
    (ct dt : KafkaTopic)
    (hc : KafkaResource.from_bytes addr cv = .ok (.Topic ct))
    (hd : KafkaResource.from_bytes addr dv = .ok (.Topic dt))
    (hbad : dt.partitions < ct.partitions
      ∨ dt.replication_factor ≠ ct.replication_factor) :
    outcomeIsErr (plan_topic addr (some cv) (some dv)) = true := by
  have hplan : plan_topic addr (some cv) (some dv) = planTopicDiff ct dt := by
    simp [plan_topic, decodeTopicAt, hc, hd, resourceToTopic]
  rw [hplan]
  unfold planTopicDiff
  rcases hbad with h | h
  · rw [if_pos h]
    rfl
  · by_cases hlt : dt.partitions < ct.partitions
    · rw [if_pos hlt]
      rfl
    · rw [if_neg hlt, if_pos h]
      rfl

def topicPayload51 : RVal :=
  .recV [("partitions", .intV 5), ("replication_factor", .intV 1), ("config", .mapV [])]

def topicPayload31 : RVal :=
  .recV [("partitions", .intV 3), ("replication_factor", .intV 1), ("config", .mapV [])]

theorem c2_topic_plan_validation_witness :
    KafkaResource.from_bytes (.Topic "c" "t") topicPayload51 = .ok (.Topic ⟨5, 1, []⟩)
      ∧ outcomeIsErr (plan_topic (.Topic "c" "t")
          (some topicPayload51) (some topicPayload31)) = true :=
  ⟨rfl, c2_topic_plan_validation (.Topic "c" "t") topicPayload51 topicPayload31
    ⟨5, 1, []⟩ ⟨3, 1, []⟩ rfl rfl (Or.inl (by decide))⟩

/-- Claim C4: for an Acl plan with both sides present and well-formed, any
structural inequality yields exactly `[DeleteAcl(current), CreateAcl(desired)]`
in that order (delete first, carrying the current value); structural equality
yields the empty list. -/
theorem c4_acl_plan_replace (addr : KafkaResourceAddress) (cv dv : RVal)
    (ca da : KafkaAcl)
    (hc : KafkaResource.from_bytes addr cv = .ok (.Acl ca))
    (hd : KafkaResource.from_bytes addr dv = .ok (.Acl da)) :
    plan_acl addr (some cv) (some dv)
      = .ok (if ca = da then []
          else [⟨.DeleteAcl ca, "Delete old ACL"⟩,
            ⟨.CreateAcl da, "Create new ACL for " ++ debugPrincipal da.principal
              ++ " on " ++ da.resource_name⟩]) := by
  simp only [plan_acl, decodeAclAt, hc, hd, resourceToAcl]
  split_ifs with h <;> rfl

def aclPayloadRead : RVal :=
  .recV [("resource_type", .unitVariant "Topic"), ("resource_name", .strV "orders"),
    ("pattern_type", .unitVariant "Literal"),
    ("principal", .recV [("principal_type", .unitVariant "User"), ("name", .strV "alice")]),
    ("host", .strV "*"), ("operation", .unitVariant "Read"),
    ("permission", .unitVariant "Allow")]

def aclPayloadWrite : RVal :=
  .recV [("resource_type", .unitVariant "Topic"), ("resource_name", .strV "orders"),
    ("pattern_type", .unitVariant "Literal"),
    ("principal", .recV [("principal_type", .unitVariant "User"), ("name", .strV "alice")]),
    ("host", .strV "*"), ("operation", .unitVariant "Write"),
    ("permission", .unitVariant "Allow")]

def aclValRead : KafkaAcl := ⟨.Topic, "orders", .Literal, ⟨.User, "alice"⟩, "*", .Read, .Allow⟩

def aclValWrite : KafkaAcl := ⟨.Topic, "orders", .Literal, ⟨.User, "alice"⟩, "*", .Write, .Allow⟩

theorem c4_acl_plan_replace_witness :
    KafkaResource.from_bytes (.Acl "c" "reader") aclPayloadRead = .ok (.Acl aclValRead)
      ∧ plan_acl (.Acl "c" "reader") (some aclPayloadRead) (some aclPayloadWrite)
        = .ok [⟨.DeleteAcl aclValRead, "Delete old ACL"⟩,
            ⟨.CreateAcl aclValWrite, "Create new ACL for "
              ++ debugPrincipal aclValWrite.principal
              ++ " on " ++ aclValWrite.resource_name⟩] := by
  refine ⟨rfl, ?_⟩
  have h := c4_acl_plan_replace (.Acl "c" "reader") aclPayloadRead aclPayloadWrite
    aclValRead aclValWrite rfl rfl
  rw [h, if_neg (by decide)]

/-- Claim C6: for every Topic operation, when the cluster is registered and
the remote admin call reports success with an empty per-item result array,
`do_op_exec` returns the corresponding "No result returned" error rather
than a success response. -/
theorem c6_empty_results_error (clusters : List String)
    (remote : AdminCall → Except String (List (Except (String × String) String)))
    (cluster topic : String) (tc : KafkaTopic) (p : Int)
    (cfg : List (String × String))
    (hc : cluster ∈ clusters) (hr : ∀ call, remote call = .ok []) :
    (do_op_exec clusters remote (.Topic cluster topic) (.CreateTopic tc)).1
        = .err "No result returned from create_topics"
      ∧ (do_op_exec clusters remote (.Topic cluster topic) (.UpdateTopicPartitions p)).1
        = .err "No result returned from create_partitions"
      ∧ (do_op_exec clusters remote (.Topic cluster topic) (.UpdateTopicConfig cfg)).1
        = .err "No result returned from alter_configs"
      ∧ (do_op_exec clusters remote (.Topic cluster topic) .DeleteTopic).1
        = .err "No result returned from delete_topics" := by
  refine ⟨?_, ?_, ?_, ?_⟩ <;> simp [do_op_exec, hc, hr]

theorem c6_empty_results_error_witness :
    "c" ∈ ["c"]
      ∧ (do_op_exec ["c"] (fun _ => .ok []) (.Topic "c" "t") .DeleteTopic).1
        = .err "No result returned from delete_topics" :=
  ⟨by decide,
    (c6_empty_results_error ["c"] (fun _ => .ok []) "c" "t" kafkaTopicDefault 0 []
      (by decide) (fun _ => rfl)).2.2.2⟩

/-- Claim C7: for every Acl or Quota address and every parsed operation,
`do_op_exec` issues no remote admin call (the call trace is empty) and
returns a successful response whose message says the operation is not yet
implemented — an explicit soft result, not an error and not a silent plain
success. -/
theorem c7_acl_quota_not_implemented (clusters : List String)
    (remote : AdminCall → Except String (List (Except (String × String) String)))
    (cluster rid : String) (op : KafkaConnectorOp) :
    do_op_exec clusters remote (.Acl cluster rid) op
        = (.ok ⟨none, some "ACL operation not yet implemented"⟩, [])
      ∧ do_op_exec clusters remote (.Quota cluster rid) op
        = (.ok ⟨none, some "Quota operation not yet implemented"⟩, []) :=
  ⟨rfl, rfl⟩

/-- Keys of an association list are pairwise distinct — the `IndexMap`
invariant, which deserialization establishes. -/
def nodupKeys {β : Type} (l : List (String × β)) : Prop := (l.map Prod.fst).Nodup

theorem lookup_none_iff_keys {β : Type} (l : List (String × β)) (k : String) :
    l.lookup k = none ↔ k ∉ l.map Prod.fst := by
  rw [List.lookup_eq_none_iff]
  constructor
  · intro h hk
    obtain ⟨p, hp, hpk⟩ := List.mem_map.mp hk
    exact absurd hpk.symm (by simpa using h p hp)
  · intro h p hp
    simp only [bne_iff_ne, ne_eq]
    intro hkp
    exact h (List.mem_map.mpr ⟨p, hp, hkp.symm⟩)

theorem lookup_mem {β : Type} (l : List (String × β)) (k : String) (v : β)
    (h : l.lookup k = some v) : (k, v) ∈ l := by
  induction l with
  | nil => simp at h
  | cons p rest ih =>
    obtain ⟨k0, v0⟩ := p
    rw [List.lookup_cons] at h
    by_cases hk : k = k0
    · subst hk
      simp at h
      subst h
      exact List.mem_cons_self _ _
    · have : (k == k0) = false := by simpa using hk
      rw [this] at h
      exact List.mem_cons_of_mem _ (ih h)

theorem mem_lookup_of_nodup {β : Type} (l : List (String × β)) (k : String) (v : β)
    (hnd : nodupKeys l) (h : (k, v) ∈ l) : l.lookup k = some v := by
  induction l with
  | nil => simp at h
  | cons p rest ih =>
    obtain ⟨k0, v0⟩ := p
    unfold nodupKeys at hnd
    simp only [List.map_cons, List.nodup_cons] at hnd
    rcases List.mem_cons.mp h with heq | hmem
    · injection heq with h1 h2
      subst h1
      subst h2
      simp
    · have hk : k ≠ k0 := by
        intro hkk
        exact hnd.1 (hkk ▸ List.mem_map.mpr ⟨(k, v), hmem, rfl⟩)
      rw [List.lookup_cons]
      have : (k == k0) = false := by simpa using hk
      rw [this]
      exact ih hnd.2 hmem

/-- `IndexMap` equality coincides, on duplicate-free maps, with pointwise
equality of lookups — the order-independent structural equality the spec
describes. -/
theorem indexMapEq_iff_lookup (a b : List (String × String))
    (ha : nodupKeys a) (hb : nodupKeys b) :
    indexMapEq a b = true ↔ ∀ k, a.lookup k = b.lookup k := by
  unfold indexMapEq
  rw [Bool.and_eq_true, beq_iff_eq, List.all_eq_true]
  constructor
  · rintro ⟨hlen, hall⟩ k
    cases hak : a.lookup k with
    | some v =>
      have hmem : (k, v) ∈ a := lookup_mem a k v hak
      have hb2 := hall (k, v) hmem
      rw [beq_iff_eq] at hb2
      simp only [hak, hb2]
    | none =>
      rw [lookup_none_iff_keys] at hak
      symm
      rw [lookup_none_iff_keys]
      intro hkb
      have hsub : ∀ x ∈ a.map Prod.fst, x ∈ b.map Prod.fst := by
        intro x hx
        obtain ⟨p, hp, hpx⟩ := List.mem_map.mp hx
        have hbl := hall p hp
        rw [beq_iff_eq] at hbl
        have : (p.1, p.2) ∈ b := lookup_mem b p.1 p.2 hbl
        exact hpx ▸ List.mem_map.mpr ⟨(p.1, p.2), this, rfl⟩
      have hfs : (a.map Prod.fst).toFinset ⊆ (b.map Prod.fst).toFinset := by
        intro x hx
        rw [List.mem_toFinset] at hx ⊢
        exact hsub x hx
      have hcard : (b.map Prod.fst).toFinset.card ≤ (a.map Prod.fst).toFinset.card := by
        rw [List.toFinset_card_of_nodup ha, List.toFinset_card_of_nodup hb,
          List.length_map, List.length_map, hlen]
      have heqfs := Finset.eq_of_subset_of_card_le hfs hcard
      have : k ∈ (a.map Prod.fst).toFinset := heqfs ▸ List.mem_toFinset.mpr hkb
      exact hak (List.mem_toFinset.mp this)
  · intro hpt
    have hfs : (a.map Prod.fst).toFinset = (b.map Prod.fst).toFinset := by
      ext x
      simp only [List.mem_toFinset]
      constructor
      · intro hx
        by_contra hxb
        rw [← lookup_none_iff_keys, ← hpt x, lookup_none_iff_keys] at hxb
        exact hxb hx
      · intro hx
        by_contra hxa
        rw [← lookup_none_iff_keys, hpt x, lookup_none_iff_keys] at hxa
        exact hxa hx
    constructor
    · have := congrArg Finset.card hfs
      rw [List.toFinset_card_of_nodup ha, List.toFinset_card_of_nodup hb,
        List.length_map, List.length_map] at this
      exact this
    · intro p hp
      rw [beq_iff_eq, ← hpt p.1]
      exact mem_lookup_of_nodup a p.1 p.2 ha hp

/-- Decompose a successful `Except` bind. -/
theorem exceptBind_ok {α β : Type} (x : Except String α) (f : α → Except String β)
    (b : β) (h : (x >>= f) = .ok b) : ∃ a, x = .ok a ∧ f a = .ok b := by
  cases x with
  | error e => simp [Bind.bind, Except.bind] at h
  | ok a => exact ⟨a, rfl, by simpa [Bind.bind, Except.bind] using h⟩

/-- A successful `from_bytes` at a Topic-kind address came from `parseTopic`. -/
theorem from_bytes_topic_inv (addr : KafkaResourceAddress) (v : RVal) (t : KafkaTopic)
    (h : KafkaResource.from_bytes addr v = .ok (.Topic t)) : parseTopic v = .ok t := by
  unfold KafkaResource.from_bytes at h
  cases hfp : KafkaResourceAddress.from_path addr.to_path_buf with
  | error e => rw [hfp] at h; exact absurd h (by simp)
  | ok a2 =>
    rw [hfp] at h
    cases a2 with
    | Topic c t2 =>
      cases hp : parseTopic v with
      | error e => rw [hp] at h; exact absurd h (by simp [Except.map])
      | ok t3 =>
        rw [hp] at h
        simp only [Except.map, Except.ok.injEq] at h
        injection h with h2
        rw [h2]
    | Acl c a =>
      cases hp : parseAcl v with
      | error e => rw [hp] at h; exact absurd h (by simp [Except.map])
      | ok a3 =>
        rw [hp] at h
        simp only [Except.map, Except.ok.injEq] at h
        exact absurd h (by simp)
    | Quota c q =>
      cases hp : parseQuota v with
      | error e => rw [hp] at h; exact absurd h (by simp [Except.map])
      | ok q3 =>
        rw [hp] at h
        simp only [Except.map, Except.ok.injEq] at h
        exact absurd h (by simp)
    | Config => exact absurd h (by simp)
    | Task k => exact absurd h (by simp)

theorem indexMapInsert_nodupKeys (m : List (String × String)) (k v : String)
    (h : nodupKeys m) : nodupKeys (indexMapInsert m k v) := by
  unfold indexMapInsert
  by_cases hmem : m.any (fun p => p.1 == k) = true
  · rw [if_pos hmem]
    unfold nodupKeys at h ⊢
    have hkeys : (m.map (fun p => if p.1 == k then (k, v) else p)).map Prod.fst
        = m.map Prod.fst := by
      rw [List.map_map]
      apply List.map_congr_left
      intro p _
      by_cases hpk : p.1 = k
      · simp [hpk]
      · simp [hpk]
    rw [hkeys]
    exact h
  · rw [if_neg hmem]
    unfold nodupKeys at h ⊢
    rw [List.map_append, List.nodup_append]
    refine ⟨h, by simp, ?_⟩
    intro x hx hk2
    simp only [List.map_cons, List.map_nil, List.mem_singleton] at hk2
    subst hk2
    rw [List.any_eq_true] at hmem
    obtain ⟨p, hp, hpx⟩ := List.mem_map.mp hx
    exact hmem ⟨p, hp, by simp [hpx]⟩

theorem parseStringMapEntries_nodup (l : List (String × RVal))
    (acc m : List (String × String)) (hacc : nodupKeys acc)
    (h : parseStringMapEntries acc l = .ok m) : nodupKeys m := by
  induction l generalizing acc with
  | nil =>
    simp only [parseStringMapEntries, Except.ok.injEq] at h
    rw [← h]
    exact hacc
  | cons p rest ih =>
    obtain ⟨k2, v2⟩ := p
    cases v2 with
    | strV s =>
      rw [show parseStringMapEntries acc ((k2, RVal.strV s) :: rest)
          = parseStringMapEntries (indexMapInsert acc k2 s) rest from rfl] at h
      exact ih (indexMapInsert acc k2 s) (indexMapInsert_nodupKeys acc k2 s hacc) h
    | intV n => exact absurd h (by simp [parseStringMapEntries])
    | floatV f => exact absurd h (by simp [parseStringMapEntries])
    | unitVariant n => exact absurd h (by simp [parseStringMapEntries])
    | optV o => exact absurd h (by simp [parseStringMapEntries])
    | mapV es => exact absurd h (by simp [parseStringMapEntries])
    | recV fs => exact absurd h (by simp [parseStringMapEntries])
    | seqV xs => exact absurd h (by simp [parseStringMapEntries])

theorem asStringMap_nodup (v : RVal) (m : List (String × String))
    (h : asStringMap v = .ok m) : nodupKeys m := by
  cases v with
  | mapV entries =>
    exact parseStringMapEntries_nodup entries [] m (by simp [nodupKeys]) h
  | intV n => exact absurd h (by simp [asStringMap])
  | floatV f => exact absurd h (by simp [asStringMap])
  | strV s => exact absurd h (by simp [asStringMap])
  | unitVariant n => exact absurd h (by simp [asStringMap])
  | optV o => exact absurd h (by simp [asStringMap])
  | recV fs => exact absurd h (by simp [asStringMap])
  | seqV xs => exact absurd h (by simp [asStringMap])

/-- A successfully parsed topic has a duplicate-free config map (the
`IndexMap` invariant). -/
theorem parseTopic_config_nodup (v : RVal) (t : KafkaTopic)
    (h : parseTopic v = .ok t) : nodupKeys t.config := by
  cases v with
  | recV fields =>
    unfold parseTopic at h
    obtain ⟨fs, hfs, h⟩ := exceptBind_ok _ _ _ h
    obtain ⟨p, hp, h⟩ := exceptBind_ok _ _ _ h
    obtain ⟨r, hrr, h⟩ := exceptBind_ok _ _ _ h
    obtain ⟨cfg, hcfg, h⟩ := exceptBind_ok _ _ _ h
    have ht : t = ⟨p, r, cfg⟩ := by
      simpa [eq_comm] using h
    rw [ht]
    cases hl : fields.lookup "config" with
    | some cv =>
      rw [hl] at hcfg
      exact asStringMap_nodup cv cfg hcfg
    | none =>
      rw [hl] at hcfg
      simp only [Except.ok.injEq] at hcfg
      show nodupKeys cfg
      rw [← hcfg]
      simp [nodupKeys, kafkaTopicDefault]
  | intV n => exact absurd h (by simp [parseTopic])
  | floatV f => exact absurd h (by simp [parseTopic])
  | strV s => exact absurd h (by simp [parseTopic])
  | unitVariant n => exact absurd h (by simp [parseTopic])
  | optV o => exact absurd h (by simp [parseTopic])
  | mapV es => exact absurd h (by simp [parseTopic])
  | seqV xs => exact absurd h (by simp [parseTopic])

/-- Claim C3: for a Topic plan with both sides present and well-formed,
partitions non-decreasing and replication_factor unchanged, the result is
exactly the partitions operations (one `UpdateTopicPartitions{desired}` on
an increase, nothing otherwise) followed, exactly when the config maps
differ as order-independent key-value maps, by one `UpdateTopicConfig`
carrying the full desired map.  Both present gives the two operations in
that order; neither gives the empty list; reordered-but-equal config maps
emit no config operation. -/
theorem c3_topic_plan_diff (addr : KafkaResourceAddress) (cv dv : RVal)
    (ct dt : KafkaTopic)
    (hc : KafkaResource.from_bytes addr cv = .ok (.Topic ct))
    (hd : KafkaResource.from_bytes addr dv = .ok (.Topic dt))
    (hp : ct.partitions ≤ dt.partitions)
    (hr : dt.replication_factor = ct.replication_factor) :
    ((∀ k, dt.config.lookup k = ct.config.lookup k) →
        plan_topic addr (some cv) (some dv) = .ok (topicPartsOps ct dt))
      ∧ ((¬ ∀ k, dt.config.lookup k = ct.config.lookup k) →
        plan_topic addr (some cv) (some dv)
          = .ok (topicPartsOps ct dt
              ++ [⟨.UpdateTopicConfig dt.config, "Update topic configuration"⟩])) := by
  have hplan : plan_topic addr (some cv) (some dv) = planTopicDiff ct dt := by
    simp [plan_topic, decodeTopicAt, hc, hd, resourceToTopic]
  have hndc : nodupKeys ct.config :=
    parseTopic_config_nodup cv ct (from_bytes_topic_inv addr cv ct hc)
  have hndd : nodupKeys dt.config :=
    parseTopic_config_nodup dv dt (from_bytes_topic_inv addr dv dt hd)
  have hnlt : ¬ dt.partitions < ct.partitions := by omega
  have hnrf : ¬ dt.replication_factor ≠ ct.replication_factor := fun hne => hne hr
  constructor
  · intro hsame
    rw [hplan]
    unfold planTopicDiff
    rw [if_neg hnlt, if_neg hnrf,
      if_pos ((indexMapEq_iff_lookup dt.config ct.config hndd hndc).mpr hsame)]
  · intro hdiff
    rw [hplan]
    unfold planTopicDiff
    rw [if_neg hnlt, if_neg hnrf,
      if_neg (fun heq => hdiff ((indexMapEq_iff_lookup dt.config ct.config hndd hndc).mp heq))]

def topicPayloadCfg1 : RVal :=
  .recV [("partitions", .intV 3), ("replication_factor", .intV 1),
    ("config", .mapV [("retention.ms", .strV "1000")])]

def topicPayloadCfg2 : RVal :=
  .recV [("partitions", .intV 5), ("replication_factor", .intV 1),
    ("config", .mapV [("retention.ms", .strV "2000")])]

theorem c3_topic_plan_diff_witness :
    KafkaResource.from_bytes (.Topic "c" "t") topicPayloadCfg1
        = .ok (.Topic ⟨3, 1, [("retention.ms", "1000")]⟩)
      ∧ plan_topic (.Topic "c" "t") (some topicPayloadCfg1) (some topicPayloadCfg2)
        = .ok [⟨.UpdateTopicPartitions 5, "Increase partitions from 3 to 5"⟩,
            ⟨.UpdateTopicConfig [("retention.ms", "2000")], "Update topic configuration"⟩] := by
  refine ⟨rfl, ?_⟩
  have h := (c3_topic_plan_diff (.Topic "c" "t") topicPayloadCfg1 topicPayloadCfg2
    ⟨3, 1, [("retention.ms", "1000")]⟩ ⟨5, 1, [("retention.ms", "2000")]⟩
    rfl rfl (by decide) rfl).2
    (fun hall => absurd (hall "retention.ms") (by decide))
  rw [h]
  decide

/-- Kind agreement between an address and a decoded resource. -/
def addrKindMatches : KafkaResourceAddress → KafkaResource → Prop
  | .Topic _ _, .Topic _ => True
  | .Acl _ _, .Acl _ => True
  | .Quota _ _, .Quota _ => True
  | _, _ => False

def exceptIsOk {ε α : Type} : Except ε α → Bool
  | .ok _ => true
  | .error _ => false

theorem parseStructFields_ok_id (schema : List String)
    (fields : List (String × RVal)) :
    ∀ (seen : List String) (out : List (String × RVal)),
      parseStructFields schema seen fields = .ok out → out = fields := by
  induction fields with
  | nil =>
    intro seen out h
    simp only [parseStructFields, Except.ok.injEq] at h
    exact h.symm
  | cons p rest ih =>
    intro seen out h
    obtain ⟨n, w⟩ := p
    unfold parseStructFields at h
    by_cases h1 : n ∈ schema
    · rw [if_neg (not_not_intro h1)] at h
      by_cases h2 : n ∈ seen
      · rw [if_pos h2] at h
        exact absurd h (by simp)
      · rw [if_neg h2] at h
        cases hrec : parseStructFields schema (n :: seen) rest with
        | ok r =>
          rw [hrec] at h
          simp only [Except.ok.injEq] at h
          rw [← h, ih (n :: seen) r hrec]
        | error e =>
          rw [hrec] at h
          exact absurd h (by simp)
    · rw [if_pos h1] at h
      exact absurd h (by simp)

theorem parseStructFields_ok_nodup (schema : List String)
    (fields : List (String × RVal)) :
    ∀ (seen : List String) (out : List (String × RVal)),
      parseStructFields schema seen fields = .ok out →
      (fields.map Prod.fst).Nodup ∧ ∀ n ∈ fields.map Prod.fst, n ∉ seen := by
  induction fields with
  | nil =>
    intro seen out _
    simp
  | cons p rest ih =>
    intro seen out h
    obtain ⟨n, w⟩ := p
    unfold parseStructFields at h
    by_cases h1 : n ∈ schema
    · rw [if_neg (not_not_intro h1)] at h
      by_cases h2 : n ∈ seen
      · rw [if_pos h2] at h
        exact absurd h (by simp)
      · rw [if_neg h2] at h
        cases hrec : parseStructFields schema (n :: seen) rest with
        | ok r =>
          obtain ⟨ihn, ihs⟩ := ih (n :: seen) r hrec
          constructor
          · simp only [List.map_cons, List.nodup_cons]
            exact ⟨fun hmem => (ihs n hmem) (List.mem_cons_self n seen), ihn⟩
          · intro x hx
            simp only [List.map_cons, List.mem_cons] at hx
            rcases hx with hx | hx
            · rw [hx]
              exact h2
            · intro hxs
              exact (ihs x hx) (List.mem_cons_of_mem n hxs)
        | error e =>
          rw [hrec] at h
          exact absurd h (by simp)
    · rw [if_pos h1] at h
      exact absurd h (by simp)

theorem parseStructFields_unknown_err (schema : List String) (n : String) (w : RVal)
    (hn : n ∉ schema) :
    ∀ (fields : List (String × RVal)) (seen : List String), (n, w) ∈ fields →
      ∃ e, parseStructFields schema seen fields = .error e := by
  intro fields
  induction fields with
  | nil =>
    intro seen hmem
    simp at hmem
  | cons p rest ih =>
    intro seen hmem
    obtain ⟨n0, w0⟩ := p
    unfold parseStructFields
    by_cases h1 : n0 ∈ schema
    · rw [if_neg (not_not_intro h1)]
      by_cases h2 : n0 ∈ seen
      · rw [if_pos h2]
        exact ⟨_, rfl⟩
      · rw [if_neg h2]
        have hmem2 : (n, w) ∈ rest := by
          rcases List.mem_cons.mp hmem with heq | h3
          · injection heq with e1 _
            exact absurd (e1 ▸ h1) hn
          · exact h3
        obtain ⟨e, he⟩ := ih (n0 :: seen) hmem2
        rw [he]
        exact ⟨e, rfl⟩
    · rw [if_pos h1]
      exact ⟨_, rfl⟩

theorem parseTopic_unknown_err (fields : List (String × RVal)) (n : String) (w : RVal)
    (hmem : (n, w) ∈ fields) (hn : n ∉ topicFieldNames) :
    ∃ e, parseTopic (.recV fields) = .error e := by
  obtain ⟨e, he⟩ := parseStructFields_unknown_err topicFieldNames n w hn fields [] hmem
  refine ⟨e, ?_⟩
  simp only [parseTopic]
  rw [he]
  rfl

theorem parseAcl_unknown_err (fields : List (String × RVal)) (n : String) (w : RVal)
    (hmem : (n, w) ∈ fields) (hn : n ∉ aclFieldNames) :
    ∃ e, parseAcl (.recV fields) = .error e := by
  obtain ⟨e, he⟩ := parseStructFields_unknown_err aclFieldNames n w hn fields [] hmem
  refine ⟨e, ?_⟩
  simp only [parseAcl]
  rw [he]
  rfl

theorem parseQuota_unknown_err (fields : List (String × RVal)) (n : String) (w : RVal)
    (hmem : (n, w) ∈ fields) (hn : n ∉ quotaFieldNames) :
    ∃ e, parseQuota (.recV fields) = .error e := by
  obtain ⟨e, he⟩ := parseStructFields_unknown_err quotaFieldNames n w hn fields [] hmem
  refine ⟨e, ?_⟩
  simp only [parseQuota]
  rw [he]
  rfl

theorem reqField_mem (fields : List (String × RVal)) (name : String) (v : RVal)
    (h : reqField fields name = .ok v) : name ∈ fields.map Prod.fst := by
  unfold reqField at h
  cases hl : fields.lookup name with
  | none =>
    rw [hl] at h
    exact absurd h (by simp)
  | some w =>
    by_contra hmem
    rw [(lookup_none_iff_keys fields name).mpr hmem] at hl
    exact absurd hl (by simp)

/-- The per-field value checks of the Topic schema: a present field whose
value fails its field parser fails the whole deserialization. -/
def topicFieldOk (n : String) (w : RVal) : Bool :=
  if n = "partitions" then exceptIsOk (asI32 w)
  else if n = "replication_factor" then exceptIsOk (asI16 w)
  else if n = "config" then exceptIsOk (asStringMap w)
  else true

def aclFieldOk (n : String) (w : RVal) : Bool :=
  if n = "resource_type" then exceptIsOk (asResourceTypeV w)
  else if n = "resource_name" then exceptIsOk (asStringV w)
  else if n = "pattern_type" then exceptIsOk (asPatternTypeV w)
  else if n = "principal" then exceptIsOk (parsePrincipal w)
  else if n = "host" then exceptIsOk (asStringV w)
  else if n = "operation" then exceptIsOk (asAclOperationV w)
  else if n = "permission" then exceptIsOk (asAclPermissionV w)
  else true

def quotaFieldOk (n : String) (w : RVal) : Bool :=
  if n = "entities" then exceptIsOk (asEntitiesV w)
  else if n = "producer_byte_rate" then exceptIsOk (asOptF64 w)
  else if n = "consumer_byte_rate" then exceptIsOk (asOptF64 w)
  else if n = "request_percentage" then exceptIsOk (asOptF64 w)
  else true

theorem reqField_lookup_ok {γ : Type} (fields : List (String × RVal)) (name : String)
    (iv : RVal) (parser : RVal → Except String γ) (g : γ)
    (hrf : reqField fields name = .ok iv) (hps : parser iv = .ok g) :
    ∀ w, fields.lookup name = some w → exceptIsOk (parser w) = true := by
  intro w hl
  unfold reqField at hrf
  rw [hl] at hrf
  have hrf2 : (Except.ok w : Except String RVal) = .ok iv := hrf
  injection hrf2 with h2
  rw [h2, hps]
  rfl

/-- Everything a successful Topic parse guarantees about its input fields
and defaulted output. -/
theorem parseTopic_inv (fields : List (String × RVal)) (t : KafkaTopic)
    (h : parseTopic (.recV fields) = .ok t) :
    (fields.map Prod.fst).Nodup
    ∧ (∀ w, fields.lookup "partitions" = some w → exceptIsOk (asI32 w) = true)
    ∧ (fields.lookup "partitions" = none → t.partitions = 1)
    ∧ (∀ w, fields.lookup "replication_factor" = some w → exceptIsOk (asI16 w) = true)
    ∧ (fields.lookup "replication_factor" = none → t.replication_factor = 1)
    ∧ (∀ w, fields.lookup "config" = some w → exceptIsOk (asStringMap w) = true)
    ∧ (fields.lookup "config" = none → t.config = []) := by
  unfold parseTopic at h
  obtain ⟨fs, hfs, h⟩ := exceptBind_ok _ _ _ h
  obtain ⟨p, hp, h⟩ := exceptBind_ok _ _ _ h
  obtain ⟨r, hrr, h⟩ := exceptBind_ok _ _ _ h
  obtain ⟨cfg, hcfg, h⟩ := exceptBind_ok _ _ _ h
  have ht : t = ⟨p, r, cfg⟩ := by simpa [eq_comm] using h
  subst ht
  refine ⟨(parseStructFields_ok_nodup _ _ [] fs hfs).1, ?_, ?_, ?_, ?_, ?_, ?_⟩
  · intro w hl
    rw [hl] at hp
    have hp2 : asI32 w = .ok p := hp
    rw [hp2]
    rfl
  · intro hl
    rw [hl] at hp
    have hp2 : (Except.ok (1 : Int) : Except String Int) = .ok p := hp
    injection hp2 with h2
    exact h2.symm
  · intro w hl
    rw [hl] at hrr
    have hr2 : asI16 w = .ok r := hrr
    rw [hr2]
    rfl
  · intro hl
    rw [hl] at hrr
    have hr2 : (Except.ok (1 : Int) : Except String Int) = .ok r := hrr
    injection hr2 with h2
    exact h2.symm
  · intro w hl
    rw [hl] at hcfg
    have hc2 : asStringMap w = .ok cfg := hcfg
    rw [hc2]
    rfl
  · intro hl
    rw [hl] at hcfg
    have hc2 : (Except.ok ([] : List (String × String))
        : Except String (List (String × String))) = .ok cfg := hcfg
    injection hc2 with h2
    exact h2.symm

/-- Everything a successful Acl parse guarantees: duplicate-free field names,
all seven required fields present, and every present required field's value
accepted by its parser. -/
theorem parseAcl_inv (fields : List (String × RVal)) (a : KafkaAcl)
    (h : parseAcl (.recV fields) = .ok a) :
    (fields.map Prod.fst).Nodup
    ∧ ("resource_type" ∈ fields.map Prod.fst
        ∧ "resource_name" ∈ fields.map Prod.fst
        ∧ "pattern_type" ∈ fields.map Prod.fst
        ∧ "principal" ∈ fields.map Prod.fst
        ∧ "host" ∈ fields.map Prod.fst
        ∧ "operation" ∈ fields.map Prod.fst
        ∧ "permission" ∈ fields.map Prod.fst)
    ∧ ((∀ w, fields.lookup "resource_type" = some w → exceptIsOk (asResourceTypeV w) = true)
        ∧ (∀ w, fields.lookup "resource_name" = some w → exceptIsOk (asStringV w) = true)
        ∧ (∀ w, fields.lookup "pattern_type" = some w → exceptIsOk (asPatternTypeV w) = true)
        ∧ (∀ w, fields.lookup "principal" = some w → exceptIsOk (parsePrincipal w) = true)
        ∧ (∀ w, fields.lookup "host" = some w → exceptIsOk (asStringV w) = true)
        ∧ (∀ w, fields.lookup "operation" = some w → exceptIsOk (asAclOperationV w) = true)
        ∧ (∀ w, fields.lookup "permission" = some w → exceptIsOk (asAclPermissionV w) = true)) := by
  unfold parseAcl at h
  obtain ⟨fs, hfs, h⟩ := exceptBind_ok _ _ _ h
  obtain ⟨rtv, hrtv, h⟩ := exceptBind_ok _ _ _ h
  obtain ⟨rt, hrt, h⟩ := exceptBind_ok _ _ _ h
  obtain ⟨rnv, hrnv, h⟩ := exceptBind_ok _ _ _ h
  obtain ⟨rn, hrn, h⟩ := exceptBind_ok _ _ _ h
  obtain ⟨ptv, hptv, h⟩ := exceptBind_ok _ _ _ h
  obtain ⟨pt, hpt, h⟩ := exceptBind_ok _ _ _ h
  obtain ⟨prv, hprv, h⟩ := exceptBind_ok _ _ _ h
  obtain ⟨pr, hpr, h⟩ := exceptBind_ok _ _ _ h
  obtain ⟨hv, hhv, h⟩ := exceptBind_ok _ _ _ h
  obtain ⟨hstr, hhs, h⟩ := exceptBind_ok _ _ _ h
  obtain ⟨ov, hov, h⟩ := exceptBind_ok _ _ _ h
  obtain ⟨o, ho, h⟩ := exceptBind_ok _ _ _ h
  obtain ⟨pv, hpv, h⟩ := exceptBind_ok _ _ _ h
  obtain ⟨pm, hpm, h⟩ := exceptBind_ok _ _ _ h
  exact ⟨(parseStructFields_ok_nodup _ _ [] fs hfs).1,
    ⟨reqField_mem _ _ _ hrtv, reqField_mem _ _ _ hrnv, reqField_mem _ _ _ hptv,
      reqField_mem _ _ _ hprv, reqField_mem _ _ _ hhv, reqField_mem _ _ _ hov,
      reqField_mem _ _ _ hpv⟩,
    ⟨reqField_lookup_ok _ _ _ _ _ hrtv hrt, reqField_lookup_ok _ _ _ _ _ hrnv hrn,
      reqField_lookup_ok _ _ _ _ _ hptv hpt, reqField_lookup_ok _ _ _ _ _ hprv hpr,
      reqField_lookup_ok _ _ _ _ _ hhv hhs, reqField_lookup_ok _ _ _ _ _ hov ho,
      reqField_lookup_ok _ _ _ _ _ hpv hpm⟩⟩

/-- Everything a successful Quota parse guarantees. -/
theorem parseQuota_inv (fields : List (String × RVal)) (q : KafkaQuota)
    (h : parseQuota (.recV fields) = .ok q) :
    (fields.map Prod.fst).Nodup
    ∧ ("entities" ∈ fields.map Prod.fst
        ∧ "producer_byte_rate" ∈ fields.map Prod.fst
        ∧ "consumer_byte_rate" ∈ fields.map Prod.fst
        ∧ "request_percentage" ∈ fields.map Prod.fst)
    ∧ ((∀ w, fields.lookup "entities" = some w → exceptIsOk (asEntitiesV w) = true)
        ∧ (∀ w, fields.lookup "producer_byte_rate" = some w → exceptIsOk (asOptF64 w) = true)
        ∧ (∀ w, fields.lookup "consumer_byte_rate" = some w → exceptIsOk (asOptF64 w) = true)
        ∧ (∀ w, fields.lookup "request_percentage" = some w → exceptIsOk (asOptF64 w) = true)) := by
  unfold parseQuota at h
  obtain ⟨fs, hfs, h⟩ := exceptBind_ok _ _ _ h
  obtain ⟨ev, hev, h⟩ := exceptBind_ok _ _ _ h
  obtain ⟨es, hes, h⟩ := exceptBind_ok _ _ _ h
  obtain ⟨pv, hpv, h⟩ := exceptBind_ok _ _ _ h
  obtain ⟨pb, hpb, h⟩ := exceptBind_ok _ _ _ h
  obtain ⟨cv2, hcv2, h⟩ := exceptBind_ok _ _ _ h
  obtain ⟨cb, hcb, h⟩ := exceptBind_ok _ _ _ h
  obtain ⟨rv, hrv, h⟩ := exceptBind_ok _ _ _ h
  obtain ⟨rp, hrp, h⟩ := exceptBind_ok _ _ _ h
  exact ⟨(parseStructFields_ok_nodup _ _ [] fs hfs).1,
    ⟨reqField_mem _ _ _ hev, reqField_mem _ _ _ hpv, reqField_mem _ _ _ hcv2,
      reqField_mem _ _ _ hrv⟩,
    ⟨reqField_lookup_ok _ _ _ _ _ hev hes, reqField_lookup_ok _ _ _ _ _ hpv hpb,
      reqField_lookup_ok _ _ _ _ _ hcv2 hcb, reqField_lookup_ok _ _ _ _ _ hrv hrp⟩⟩

/-- Dispatch: on a component-safe address, a successful decode yields the
resource variant matching the address kind. -/
theorem from_bytes_kind (addr : KafkaResourceAddress) (v : RVal) (r : KafkaResource)
    (hsafe : addrRoundTripSafe addr) (h : KafkaResource.from_bytes addr v = .ok r) :
    addrKindMatches addr r := by
  unfold KafkaResource.from_bytes at h
  rw [decode_encode_of_safe addr hsafe] at h
  cases addr with
  | Topic c t =>
    cases hp : parseTopic v with
    | ok tt =>
      rw [hp] at h
      have h2 : (Except.ok (KafkaResource.Topic tt) : Except String KafkaResource)
          = .ok r := h
      injection h2 with h3
      rw [← h3]
      trivial
    | error e =>
      rw [hp] at h
      exact absurd h (by simp [Except.map])
  | Acl c aid =>
    cases hp : parseAcl v with
    | ok aa =>
      rw [hp] at h
      have h2 : (Except.ok (KafkaResource.Acl aa) : Except String KafkaResource)
          = .ok r := h
      injection h2 with h3
      rw [← h3]
      trivial
    | error e =>
      rw [hp] at h
      exact absurd h (by simp [Except.map])
  | Quota c qid =>
    cases hp : parseQuota v with
    | ok qq =>
      rw [hp] at h
      have h2 : (Except.ok (KafkaResource.Quota qq) : Except String KafkaResource)
          = .ok r := h
      injection h2 with h3
      rw [← h3]
      trivial
    | error e =>
      rw [hp] at h
      exact absurd h (by simp [Except.map])
  | Config => exact absurd h (by simp)
  | Task k => exact hsafe.elim

/-- Claim C5, counterexample: the claim says deserialization fails with a
parse error when a required field is missing and never silently fills one
in, but `KafkaTopic` carries `#[serde(default)]`: the empty Topic payload
parses successfully, every field silently filled from the default value. -/
theorem c5_counterexample :
    KafkaResource.from_bytes (.Topic "c" "t") (.recV [])
      = .ok (.Topic ⟨1, 1, []⟩) := rfl

/-- Claim C5 (amended): deserialize dispatches on the kind carried by a
well-formed address; a payload containing an unknown top-level field is
rejected for all three kinds; for Acl and Quota a successful parse requires
every required field to be present (a missing required field is a parse
error) and every present field's value to pass its field parser (a
wrong-typed field is a parse error); for Topic, whose struct carries
serde(default), missing fields are silently filled from the default
(partitions 1, replication_factor 1, empty config) while present
wrong-typed fields still fail. -/
theorem c5_schema_behavior :
    (∀ addr v r, addrRoundTripSafe addr →
        KafkaResource.from_bytes addr v = .ok r → addrKindMatches addr r)
  ∧ (∀ fields n w, (n, w) ∈ fields → n ∉ topicFieldNames →
      ∃ e, parseTopic (.recV fields) = .error e)
  ∧ (∀ fields n w, (n, w) ∈ fields → n ∉ aclFieldNames →
      ∃ e, parseAcl (.recV fields) = .error e)
  ∧ (∀ fields n w, (n, w) ∈ fields → n ∉ quotaFieldNames →
      ∃ e, parseQuota (.recV fields) = .error e)
  ∧ (∀ fields a, parseAcl (.recV fields) = .ok a →
      ∀ n, n ∈ aclFieldNames → n ∈ fields.map Prod.fst)
  ∧ (∀ fields q, parseQuota (.recV fields) = .ok q →
      ∀ n, n ∈ quotaFieldNames → n ∈ fields.map Prod.fst)
  ∧ (∀ fields t, parseTopic (.recV fields) = .ok t →
      ∀ n w, (n, w) ∈ fields → topicFieldOk n w = true)
  ∧ (∀ fields a, parseAcl (.recV fields) = .ok a →
      ∀ n w, (n, w) ∈ fields → aclFieldOk n w = true)
  ∧ (∀ fields q, parseQuota (.recV fields) = .ok q →
      ∀ n w, (n, w) ∈ fields → quotaFieldOk n w = true)
  ∧ (∀ fields t, parseTopic (.recV fields) = .ok t →
      ("partitions" ∉ fields.map Prod.fst → t.partitions = 1)
      ∧ ("replication_factor" ∉ fields.map Prod.fst → t.replication_factor = 1)
      ∧ ("config" ∉ fields.map Prod.fst → t.config = [])) := by
  refine ⟨from_bytes_kind, parseTopic_unknown_err, parseAcl_unknown_err,
    parseQuota_unknown_err, ?_, ?_, ?_, ?_, ?_, ?_⟩
  · intro fields a h n hn
    obtain ⟨-, hmems, -⟩ := parseAcl_inv fields a h
    simp only [aclFieldNames, List.mem_cons, List.not_mem_nil, or_false] at hn
    rcases hn with rfl | rfl | rfl | rfl | rfl | rfl | rfl
    · exact hmems.1
    · exact hmems.2.1
    · exact hmems.2.2.1
    · exact hmems.2.2.2.1
    · exact hmems.2.2.2.2.1
    · exact hmems.2.2.2.2.2.1
    · exact hmems.2.2.2.2.2.2
  · intro fields q h n hn
    obtain ⟨-, hmems, -⟩ := parseQuota_inv fields q h
    simp only [quotaFieldNames, List.mem_cons, List.not_mem_nil, or_false] at hn
    rcases hn with rfl | rfl | rfl | rfl
    · exact hmems.1
    · exact hmems.2.1
    · exact hmems.2.2.1
    · exact hmems.2.2.2
  · intro fields t h n w hmem
    obtain ⟨hnd, hpart, -, hrfac, -, hcfg, -⟩ := parseTopic_inv fields t h
    have hl := mem_lookup_of_nodup fields n w hnd hmem
    unfold topicFieldOk
    by_cases h1 : n = "partitions"
    · subst h1
      rw [if_pos rfl]
      exact hpart w hl
    · rw [if_neg h1]
      by_cases h2 : n = "replication_factor"
      · subst h2
        rw [if_pos rfl]
        exact hrfac w hl
      · rw [if_neg h2]
        by_cases h3 : n = "config"
        · subst h3
          rw [if_pos rfl]
          exact hcfg w hl
        · rw [if_neg h3]
  · intro fields a h n w hmem
    obtain ⟨hnd, -, hoks⟩ := parseAcl_inv fields a h
    have hl := mem_lookup_of_nodup fields n w hnd hmem
    unfold aclFieldOk
    by_cases h1 : n = "resource_type"
    · subst h1
      rw [if_pos rfl]
      exact hoks.1 w hl
    · rw [if_neg h1]
      by_cases h2 : n = "resource_name"
      · subst h2
        rw [if_pos rfl]
        exact hoks.2.1 w hl
      · rw [if_neg h2]
        by_cases h3 : n = "pattern_type"
        · subst h3
          rw [if_pos rfl]
          exact hoks.2.2.1 w hl
        · rw [if_neg h3]
          by_cases h4 : n = "principal"
          · subst h4
            rw [if_pos rfl]
            exact hoks.2.2.2.1 w hl
          · rw [if_neg h4]
            by_cases h5 : n = "host"
            · subst h5
              rw [if_pos rfl]
              exact hoks.2.2.2.2.1 w hl
            · rw [if_neg h5]
              by_cases h6 : n = "operation"
              · subst h6
                rw [if_pos rfl]
                exact hoks.2.2.2.2.2.1 w hl
              · rw [if_neg h6]
                by_cases h7 : n = "permission"
                · subst h7
                  rw [if_pos rfl]
                  exact hoks.2.2.2.2.2.2 w hl
                · rw [if_neg h7]
  · intro fields q h n w hmem
    obtain ⟨hnd, -, hoks⟩ := parseQuota_inv fields q h
    have hl := mem_lookup_of_nodup fields n w hnd hmem
    unfold quotaFieldOk
    by_cases h1 : n = "entities"
    · subst h1
      rw [if_pos rfl]
      exact hoks.1 w hl
    · rw [if_neg h1]
      by_cases h2 : n = "producer_byte_rate"
      · subst h2
        rw [if_pos rfl]
        exact hoks.2.1 w hl
      · rw [if_neg h2]
        by_cases h3 : n = "consumer_byte_rate"
        · subst h3
          rw [if_pos rfl]
          exact hoks.2.2.1 w hl
        · rw [if_neg h3]
          by_cases h4 : n = "request_percentage"
          · subst h4
            rw [if_pos rfl]
            exact hoks.2.2.2 w hl
          · rw [if_neg h4]
  · intro fields t h
    obtain ⟨-, -, hd1, -, hd2, -, hd3⟩ := parseTopic_inv fields t h
    exact ⟨fun hm => hd1 ((lookup_none_iff_keys fields "partitions").mpr hm),
      fun hm => hd2 ((lookup_none_iff_keys fields "replication_factor").mpr hm),
      fun hm => hd3 ((lookup_none_iff_keys fields "config").mpr hm)⟩

theorem c5_schema_behavior_witness :
    (("bogus", RVal.intV 1) ∈ [("bogus", RVal.intV 1)] ∧ "bogus" ∉ topicFieldNames)
      ∧ (∃ e, parseTopic (.recV [("bogus", RVal.intV 1)]) = .error e) :=
  ⟨⟨List.mem_cons_self _ _, by decide⟩,
    c5_schema_behavior.2.1 [("bogus", RVal.intV 1)] "bogus" (RVal.intV 1)
      (List.mem_cons_self _ _) (by decide)⟩
